import Mathlib

/-!
Verification development for the tg-news-bot content pipeline.

The Python source is shallowly embedded: rows of the `fetched_events` and
`scheduled_posts` tables become Lean structures, the SQL statements and the
pure parts of the Python functions become Lean functions over lists, and the
text-repair chain of `call_editor_api` is reproduced over `List Char`
together with a model of the CPython `json.loads` recursive-descent decoder
(including its error kinds and character positions, which the repair chain
inspects).
-/

namespace TgBot

/-- Characters of a Python string, kept as an explicit character list so that
every transformation of the repair chain stays a plain computable function. -/
abbrev Str := List Char

/-- Whitespace skipped by the CPython json decoder (the regex [ \t\n\r]). -/
def isJsonWs (c : Char) : Bool :=
  c == ' ' || c == '\t' || c == '\n' || c == '\r'

/-- Whitespace of the Python regex class \s (ASCII part). -/
def isReWs (c : Char) : Bool :=
  c == ' ' || c == '\t' || c == '\n' || c == '\r' || c == '\x0b' || c == '\x0c'

/-- Whitespace stripped by Python str.strip with no arguments (ASCII part). -/
def isPyWs (c : Char) : Bool :=
  c == ' ' || c == '\t' || c == '\n' || c == '\r' || c == '\x0b' || c == '\x0c'

/-- Python str.lstrip. -/
def pyLstrip (s : Str) : Str := s.dropWhile isPyWs

/-- Python str.rstrip. -/
def pyRstrip (s : Str) : Str := (s.reverse.dropWhile isPyWs).reverse

/-- Python str.strip. -/
def pyStrip (s : Str) : Str := pyRstrip (pyLstrip s)

/-- Python str.startswith. -/
def startsWith (s pre : Str) : Bool := pre.isPrefixOf s

/-- Python str.endswith. -/
def endsWith (s suf : Str) : Bool := suf.isSuffixOf s

/-- Python str.replace (all non-overlapping occurrences, left to right).
The fuel is the remaining length; every pattern used in this development is
nonempty, so a match always consumes at least one character and the fuel
chosen in replaceAll below never runs out. -/
def replaceAllF (old new : Str) : Nat → Str → Str
  | 0, s => s
  | _ + 1, [] => []
  | fuel + 1, c :: cs =>
    if old ≠ [] ∧ old.isPrefixOf (c :: cs) then
      new ++ replaceAllF old new fuel ((c :: cs).drop old.length)
    else
      c :: replaceAllF old new fuel cs

/-- Python str.replace over a whole string. -/
def replaceAll (old new : Str) (s : Str) : Str := replaceAllF old new s.length s

/-- Python str.split on a newline: every newline separates, so n newlines
give n+1 pieces, and the empty string gives one empty piece. -/
def splitNl : Str → List Str
  | [] => [[]]
  | c :: cs =>
    if c == '\n' then [] :: splitNl cs
    else
      match splitNl cs with
      | [] => [[c]]
      | h :: t => (c :: h) :: t

/-- Python "\n".join. -/
def joinNl (ls : List Str) : Str :=
  match ls with
  | [] => []
  | [l] => l
  | l :: ls => l ++ '\n' :: joinNl ls

/-! ## fetched_events rows and the database operations (modules/database.py) -/

/-- One row of the fetched_events table: {event_id, groupId, eventDate,
report, isPosted}. The tri-state posted flag is an `Option Bool`
(`none` = SQL NULL = unset). -/
structure Row where
  event_id : Nat
  groupId : Nat
  eventDate : Nat
  report : Str
  isPosted : Option Bool
deriving DecidableEq

/-- The fetched_events table as a list of rows. -/
abbrev DB := List Row

/-- Effect of the UPDATE in mark_news_as_processed on a single row:
SET isPosted = FALSE WHERE groupId = g AND isPosted IS NULL. -/
def markRow (g : Nat) (r : Row) : Row :=
  if r.groupId = g ∧ r.isPosted = none then { r with isPosted := some false } else r

/-- database.mark_news_as_processed: flags every still-NULL row of the group
as isPosted = FALSE. -/
def mark_news_as_processed (g : Nat) (db : DB) : DB := db.map (markRow g)

/-- Effect of the UPDATE in update_news_status_by_group on a single row:
SET isPosted = status WHERE groupId = g AND (isPosted IS NULL OR isPosted = FALSE). -/
def updateRow (g : Nat) (status : Bool) (r : Row) : Row :=
  if r.groupId = g ∧ (r.isPosted = none ∨ r.isPosted = some false) then
    { r with isPosted := some status }
  else r

/-- database.update_news_status_by_group. -/
def update_news_status_by_group (g : Nat) (status : Bool) (db : DB) : DB :=
  db.map (updateRow g status)

/-- Ordering key used by ORDER BY "eventDate" ASC and by the Python re-sort
news_list.sort(key=eventDate). -/
def dateLe (a b : Row) : Prop := a.eventDate ≤ b.eventDate

instance : DecidableRel dateLe := fun a b => Nat.decLe a.eventDate b.eventDate

instance : IsTotal Row dateLe := ⟨fun a b => Nat.le_total a.eventDate b.eventDate⟩

instance : IsTrans Row dateLe := ⟨fun _ _ _ h h' => Nat.le_trans h h'⟩

/-- Sorting rows by eventDate (SQL ORDER BY ASC; also the Python list sort). -/
def sortByDate (l : List Row) : List Row := l.insertionSort dateLe

/-- Rows of one group that are still unprocessed (isPosted IS NULL), in table
order, as selected by the per-group SELECT of get_unposted_news_groups. -/
def nullRowsOf (g : Nat) (db : DB) : List Row :=
  db.filter (fun r => r.groupId == g && r.isPosted == none)

/-- Python news_list[-3:]: the last n elements. -/
def lastN (n : Nat) (l : List α) : List α := l.drop (l.length - n)

/-- The group ids having at least one isPosted IS NULL row, sorted and
deduplicated (SELECT DISTINCT ON ("groupId") ... ORDER BY "groupId"). -/
def unpostedGroupIds (db : DB) : List Nat :=
  ((db.filterMap (fun r => if r.isPosted = none then some r.groupId else none)).insertionSort
    (· ≤ ·)).dedup

/-- Group ids kept after the count filter: groups with no isPosted = FALSE
row (a FALSE row means the group is already in review and is skipped). -/
def filteredGroupIds (db : DB) : List Nat :=
  (unpostedGroupIds db).filter
    (fun g => (db.filter (fun r => r.groupId == g && r.isPosted == some false)).length == 0)

/-- Body of the second loop of get_unposted_news_groups for one group id:
select the still-NULL rows of the group (ORDER BY eventDate ASC), re-sort
them in Python, keep the last 3, record the group, then run
mark_news_as_processed on the group. -/
def claimStep (acc : List (Nat × List Row) × DB) (g : Nat) : List (Nat × List Row) × DB :=
  let news := sortByDate (sortByDate (nullRowsOf g acc.2))
  (acc.1 ++ [(g, lastN 3 news)], mark_news_as_processed g acc.2)

/-- database.get_unposted_news_groups: returns the groupId → news mapping (as
an association list in insertion order) together with the table state after
the embedded mark_news_as_processed calls. -/
def get_unposted_news_groups (db : DB) : List (Nat × List Row) × DB :=
  (filteredGroupIds db).foldl claimStep ([], db)

/-- Rank of the tri-state posted flag in the order unset < false < true. -/
def flagRank : Option Bool → Nat
  | none => 0
  | some false => 1
  | some true => 2

/-! ## A model of CPython json.loads, with its error kinds and positions

The repair chain in api_clients.call_editor_api inspects the decode error
message ("Expecting ',' delimiter") and its line/column, so the model keeps
the error kind and the character position at which CPython reports it. -/

/-- Parsed JSON values. Numbers keep their source lexeme (the program never
computes with them). Objects keep their fields in parse order. -/
inductive JValue where
  | str (s : Str)
  | num (lexeme : Str)
  | bool (b : Bool)
  | null
  | arr (elems : List JValue)
  | obj (fields : List (Str × JValue))

/-- Kinds of json.JSONDecodeError raised by the CPython decoder. -/
inductive JErrKind where
  | expValue
  | expPropName
  | expColon
  | expComma
  | untermStr
  | invalidCtrl
  | invalidEsc
  | extraData
deriving DecidableEq

/-- A decode error: its kind and the 0-based character position CPython
attaches to it (lineno/colno are derived from it). -/
structure JErr where
  kind : JErrKind
  pos : Nat
deriving DecidableEq

/-- Index just past the run of json whitespace starting at i. -/
def skipJsonWs (s : Str) (i : Nat) : Nat :=
  i + ((s.drop i).takeWhile isJsonWs).length

/-- True when the literal lit occurs in s starting at index i. -/
def litAt (s : Str) (i : Nat) (lit : Str) : Bool :=
  lit.isPrefixOf (s.drop i)

/-- Single-character string escapes accepted by the decoder. -/
def escMap : Char → Option Char
  | '"' => some '"'
  | '\\' => some '\\'
  | '/' => some '/'
  | 'b' => some '\x08'
  | 'f' => some '\x0c'
  | 'n' => some '\n'
  | 'r' => some '\r'
  | 't' => some '\t'
  | _ => none

/-- Hex digit value. -/
def hexVal (c : Char) : Option Nat :=
  if '0' ≤ c ∧ c ≤ '9' then some (c.toNat - 48)
  else if 'a' ≤ c ∧ c ≤ 'f' then some (c.toNat - 87)
  else if 'A' ≤ c ∧ c ≤ 'F' then some (c.toNat - 55)
  else none

/-- Scan of a double-quoted string body (py_scanstring). The first argument
is the index of the opening quote (used for the unterminated-string error
position); the list is the text after the opening quote with i the absolute
index of its head. Returns the decoded content and the index just past the
closing quote. -/
def scanStrList (strBegin : Nat) : Str → Nat → Except JErr (Str × Nat)
  | [], _ => .error ⟨.untermStr, strBegin⟩
  | '"' :: _, i => .ok ([], i + 1)
  | '\\' :: [], _ => .error ⟨.untermStr, strBegin⟩
  | '\\' :: 'u' :: h1 :: h2 :: h3 :: h4 :: rest, i =>
    match hexVal h1, hexVal h2, hexVal h3, hexVal h4 with
    | some a, some b, some c, some d =>
      (scanStrList strBegin rest (i + 6)).map
        (fun p => (Char.ofNat (((a * 16 + b) * 16 + c) * 16 + d) :: p.1, p.2))
    | _, _, _, _ => .error ⟨.invalidEsc, i + 1⟩
  | '\\' :: e :: rest, i =>
    match escMap e with
    | some d => (scanStrList strBegin rest (i + 2)).map (fun p => (d :: p.1, p.2))
    | none => .error ⟨.invalidEsc, i + 1⟩
  | c :: rest, i =>
    if c.toNat < 32 then .error ⟨.invalidCtrl, i⟩
    else (scanStrList strBegin rest (i + 1)).map (fun p => (c :: p.1, p.2))

/-- Scan a string whose opening quote sits at index i - 1. -/
def scanStrAbs (s : Str) (i : Nat) : Except JErr (Str × Nat) :=
  scanStrList (i - 1) (s.drop i) i

/-- Lexer for the NUMBER_RE regex (-?(0|[1-9]\d*))(\.\d+)?([eE][-+]?\d+)?.
Returns the matched lexeme and its length, or none when the regex does not
match at this position. -/
def numLex (l : Str) : Option (Str × Nat) :=
  let (sign, l1) := match l with
    | '-' :: r => (['-'], r)
    | _ => (([] : Str), l)
  let ipart : Option (Str × Str) := match l1 with
    | '0' :: r => some (['0'], r)
    | c :: r =>
      if c.isDigit ∧ c ≠ '0' then
        some (c :: r.takeWhile Char.isDigit, r.dropWhile Char.isDigit)
      else none
    | [] => none
  match ipart with
  | none => none
  | some (ds, rest) =>
    let (fpart, rest2) : Str × Str := match rest with
      | '.' :: r =>
        let fd := r.takeWhile Char.isDigit
        if fd = [] then ([], rest) else ('.' :: fd, r.dropWhile Char.isDigit)
      | _ => ([], rest)
    let (epart, _) : Str × Str := match rest2 with
      | e :: r =>
        if e = 'e' ∨ e = 'E' then
          let (sg, r2) : Str × Str := match r with
            | '+' :: r2 => (['+'], r2)
            | '-' :: r2 => (['-'], r2)
            | _ => ([], r)
          let ed := r2.takeWhile Char.isDigit
          if ed = [] then ([], rest2) else (e :: (sg ++ ed), r2.dropWhile Char.isDigit)
        else ([], rest2)
      | [] => ([], rest2)
    let lex := sign ++ ds ++ fpart ++ epart
    some (lex, lex.length)

/-- The three mutually recursive routines of the decoder at one recursion
depth: scan_once, the JSONObject member loop, and the JSONArray element
loop. Bundling them lets the whole decoder recurse structurally on a single
fuel counter (large enough at the top level never to run out). -/
structure Decoders where
  scan : Nat → Except JErr (JValue × Nat)
  members : Nat → List (Str × JValue) → Except JErr (JValue × Nat)
  elems : Nat → List JValue → Except JErr (JValue × Nat)

/-- One level of scan_once given the next-lower decoders: dispatch on the
first character to string, object, array, the three keyword literals, a
number, or the non-standard Infinity and NaN constants the CPython decoder
accepts; anything else is Expecting value at this index. An object branch
first looks for the key quote or the empty object, an array branch for the
closing bracket. -/
def scanBody (s : Str) (d : Decoders) (i : Nat) : Except JErr (JValue × Nat) :=
  match s[i]? with
  | none => .error ⟨.expValue, i⟩
  | some c =>
    if c = '"' then (scanStrAbs s (i + 1)).map (fun p => (.str p.1, p.2))
    else if c = '{' then
      let j := i + 1
      let i1 := if s[j]? = some '"' then j else skipJsonWs s j
      match s[i1]? with
      | some '"' => d.members (i1 + 1) []
      | some '}' => .ok (.obj [], i1 + 1)
      | _ => .error ⟨.expPropName, i1⟩
    else if c = '[' then
      let i1 := skipJsonWs s (i + 1)
      match s[i1]? with
      | some ']' => .ok (.arr [], i1 + 1)
      | _ => d.elems i1 []
    else if c = 'n' ∧ litAt s i ['n', 'u', 'l', 'l'] then .ok (.null, i + 4)
    else if c = 't' ∧ litAt s i ['t', 'r', 'u', 'e'] then .ok (.bool true, i + 4)
    else if c = 'f' ∧ litAt s i ['f', 'a', 'l', 's', 'e'] then .ok (.bool false, i + 5)
    else
      match numLex (s.drop i) with
      | some (lex, k) => .ok (.num lex, i + k)
      | none =>
        if c = 'N' ∧ litAt s i ['N', 'a', 'N'] then .ok (.num ['N', 'a', 'N'], i + 3)
        else if c = 'I' ∧ litAt s i ("Infinity".data) then .ok (.num ("Infinity".data), i + 8)
        else if c = '-' ∧ litAt s i ("-Infinity".data) then .ok (.num ("-Infinity".data), i + 9)
        else .error ⟨.expValue, i⟩

/-- One level of the JSONObject member loop: i is the index just after the
opening quote of the next key. Error positions follow the CPython decoder:
Expecting colon at the first non-whitespace character after the key,
Expecting comma at the first non-whitespace character after a value,
Expecting property name at the character after a comma. -/
def membersBody (s : Str) (d : Decoders) (i : Nat) (acc : List (Str × JValue)) :
    Except JErr (JValue × Nat) :=
  match scanStrAbs s i with
  | .error e => .error e
  | .ok (key, i2) =>
    let i3 := if s[i2]? = some ':' then i2 else skipJsonWs s i2
    match s[i3]? with
    | some ':' =>
      let i4 := skipJsonWs s (i3 + 1)
      match d.scan i4 with
      | .error e => .error e
      | .ok (v, i5) =>
        let acc2 := acc ++ [(key, v)]
        let i6 := skipJsonWs s i5
        match s[i6]? with
        | some '}' => .ok (.obj acc2, i6 + 1)
        | some ',' =>
          let i7 := skipJsonWs s (i6 + 1)
          match s[i7]? with
          | some '"' => d.members (i7 + 1) acc2
          | _ => .error ⟨.expPropName, i7⟩
        | _ => .error ⟨.expComma, i6⟩
    | _ => .error ⟨.expColon, i3⟩

/-- One level of the JSONArray element loop; i is the index of the next
value. -/
def elemsBody (s : Str) (d : Decoders) (i : Nat) (acc : List JValue) :
    Except JErr (JValue × Nat) :=
  match d.scan i with
  | .error e => .error e
  | .ok (v, i2) =>
    let acc2 := acc ++ [v]
    let i3 := skipJsonWs s i2
    match s[i3]? with
    | some ']' => .ok (.arr acc2, i3 + 1)
    | some ',' => d.elems (skipJsonWs s (i3 + 1)) acc2
    | _ => .error ⟨.expComma, i3⟩

/-- The decoders at each fuel level; level zero refuses with Expecting
value (never reached for the fuel chosen by jsonParseE). -/
def decAux (s : Str) : Nat → Decoders
  | 0 =>
    ⟨fun i => .error ⟨.expValue, i⟩,
     fun i _ => .error ⟨.expValue, i⟩,
     fun i _ => .error ⟨.expValue, i⟩⟩
  | fuel + 1 =>
    let d := decAux s fuel
    ⟨scanBody s d, membersBody s d, elemsBody s d⟩

/-- scan_once of the decoder: parse one value starting exactly at index i
(callers skip whitespace). -/
def scanOnce (s : Str) (fuel i : Nat) : Except JErr (JValue × Nat) :=
  (decAux s fuel).scan i

/-- json.loads: skip leading whitespace, parse one value, then require only
whitespace to the end (else "Extra data"). -/
def jsonParseE (s : Str) : Except JErr JValue :=
  let i0 := skipJsonWs s 0
  match scanOnce s (s.length + 2) i0 with
  | .error e => .error e
  | .ok (v, i1) =>
    let i2 := skipJsonWs s i1
    if i2 = s.length then .ok v else .error ⟨.extraData, i2⟩

/-- Index of the last newline of t, if any. -/
def lastNlIdxAux : Str → Nat → Option Nat → Option Nat
  | [], _, acc => acc
  | c :: r, i, acc => lastNlIdxAux r (i + 1) (if c == '\n' then some i else acc)

/-- Index of the last newline of t, if any. -/
def lastNlIdx (t : Str) : Option Nat := lastNlIdxAux t 0 none

/-- JSONDecodeError.lineno: one plus the newlines before the error position. -/
def lineOf (s : Str) (pos : Nat) : Nat :=
  1 + ((s.take pos).filter (fun c => c == '\n')).length

/-- JSONDecodeError.colno: pos - doc.rfind of a newline before pos. -/
def colOf (s : Str) (pos : Nat) : Nat :=
  match lastNlIdx (s.take pos) with
  | none => pos + 1
  | some k => pos - k

/-- Python dict lookup on a parsed object (duplicate keys: last wins);
none when the value is not an object or the key is absent. -/
def jGet (v : JValue) (key : Str) : Option JValue :=
  match v with
  | .obj fields => ((fields.filter (fun p => p.1 == key)).map Prod.snd).getLast?
  | _ => none

/-! ## The response repair chain of api_clients.call_editor_api

Each regex substitution of the source is reproduced as an explicit scan
function with the same leftmost, non-overlapping semantics. -/

/-- The single-quote character (kept out of literals). -/
def apos : Char := Char.ofNat 39

/-- Opening curly brace character. -/
def lbrace : Char := Char.ofNat 123

/-- Closing curly brace character. -/
def rbrace : Char := Char.ofNat 125

/-- Generic re.sub driver: at each position try a match; on success emit the
replacement and continue after the consumed text, otherwise keep the char.
Every matcher used below consumes at least one character, so fuel equal to
the length never runs out. -/
def reSubF (f : Str → Option (Str × Str)) : Nat → Str → Str
  | 0, s => s
  | _ + 1, [] => []
  | fuel + 1, c :: cs =>
    match f (c :: cs) with
    | some (rep, rest) => rep ++ reSubF f fuel rest
    | none => c :: reSubF f fuel cs

/-- re.sub over a whole string. -/
def reSub (f : Str → Option (Str × Str)) (s : Str) : Str := reSubF f s.length s

/-- Maximal munch of the regex piece ([^"\]|\\x)* without DOTALL: a bare
backslash cannot escape a newline, so the munch stops there (and the
enclosing pattern then fails to find its closing quote). -/
def munchND : Str → Str × Str
  | [] => ([], [])
  | '"' :: r => ([], '"' :: r)
  | '\\' :: c :: r =>
    if c = '\n' then ([], '\\' :: c :: r)
    else
      let (t, u) := munchND r
      ('\\' :: c :: t, u)
  | ['\\'] => ([], ['\\'])
  | c :: r =>
    let (t, u) := munchND r
    (c :: t, u)

/-- Maximal munch of the same piece with re.DOTALL (backslash escapes any
character, newline included). -/
def munchDA : Str → Str × Str
  | [] => ([], [])
  | '"' :: r => ([], '"' :: r)
  | '\\' :: c :: r =>
    let (t, u) := munchDA r
    ('\\' :: c :: t, u)
  | ['\\'] => ([], ['\\'])
  | c :: r =>
    let (t, u) := munchDA r
    (c :: t, u)

/-- fix_inner_quotes of clean_reply: re.sub of a double quote with no
backslash immediately before it (lookbehind over the original text) by a
backslash-quote pair. -/
def fixInnerQuotesGo : Option Char → Str → Str
  | _, [] => []
  | prev, c :: r =>
    if c = '"' ∧ prev ≠ some '\\' then '\\' :: '"' :: fixInnerQuotesGo (some c) r
    else c :: fixInnerQuotesGo (some c) r

/-- fix_inner_quotes applied to one captured group. -/
def fixInnerQuotes (content : Str) : Str := fixInnerQuotesGo none content

/-- Matcher for the quoted-token pattern of clean_reply (no DOTALL): a
quote, a string body, a closing quote; the replacement re-wraps the
fix_inner_quotes image of the captured body in quotes. -/
def tryQuotedTok (l : Str) : Option (Str × Str) :=
  match l with
  | '"' :: body =>
    let (content, rest) := munchND body
    match rest with
    | '"' :: r => some ('"' :: (fixInnerQuotes content ++ ['"']), r)
    | _ => none
  | _ => none

/-- Code-fence stripping prefix of clean_reply: strip, drop a leading
literal backtick-json fence, drop a trailing triple-backtick fence. -/
def strip_fences (text : Str) : Str :=
  let t := pyStrip text
  let t := if startsWith t ("```json".data) then pyStrip (t.drop 7) else t
  let t := if endsWith t ("```".data) then pyStrip (t.take (t.length - 3)) else t
  t

/-- api_clients clean_reply: fence stripping, then return the text if it
already parses, else the quote-fixing substitution. -/
def clean_reply (text : Str) : Str :=
  let t := strip_fences text
  match jsonParseE t with
  | .ok _ => t
  | .error _ => reSub tryQuotedTok t

/-- Per-line repair of the unterminated-quote heuristic (the loop over
lines in call_editor_api): the line is first rstripped; lines ending in a
separator are kept as they are, lines that look like an unterminated
key/value get a closing quote appended. -/
def lineFix (orig : Str) : Str :=
  let line := pyRstrip orig
  if endsWith line [','] || endsWith line [lbrace] || endsWith line ['['] ||
      endsWith line [':'] || endsWith line [rbrace] then orig
  else if line.contains ':' &&
      !(endsWith line ['"'] || endsWith line [','] || endsWith line [rbrace] ||
        endsWith line [']']) then
    line ++ ['"']
  else if startsWith (pyLstrip line) ['"'] && !(endsWith line ['"'] || endsWith line [',']) then
    line ++ ['"']
  else orig

/-- Stages 2 to 4 of the chain, applied unconditionally before the first
parse attempt: single-to-double quote replacement, the per-line quote
closing loop, and the four missing-separator replacements. -/
def repair_stages (c0 : Str) : Str :=
  let c1 := replaceAll [apos] ['"'] c0
  let c2 := joinNl ((splitNl c1).map lineFix)
  let c3 := replaceAll [rbrace, '\n', lbrace] [rbrace, ',', '\n', lbrace] c2
  let c4 := replaceAll [']', '\n', '['] [']', ',', '\n', '['] c3
  let c5 := replaceAll [rbrace, '\n', '"'] [rbrace, ',', '\n', '"'] c4
  let c6 := replaceAll [']', '\n', '"'] [']', ',', '\n', '"'] c5
  c6

/-- Matcher for the aggressive fix of a quote-comma-whitespace-closer run
(re.sub of quote comma ws-star close by quote close). -/
def tryCommaClose (close : Char) (l : Str) : Option (Str × Str) :=
  match l with
  | '"' :: ',' :: rest =>
    match rest.dropWhile isReWs with
    | c :: r => if c = close then some (['"', close], r) else none
    | [] => none
  | _ => none

/-- Matcher for the missing-comma-between-properties fix (quote, whitespace
containing a newline, quote becomes quote comma newline quote). -/
def tryQuoteNl (l : Str) : Option (Str × Str) :=
  match l with
  | '"' :: rest =>
    let w := rest.takeWhile isReWs
    if w.contains '\n' then
      match rest.dropWhile isReWs with
      | '"' :: r => some (['"', ',', '\n', '"'], r)
      | _ => none
    else none
  | _ => none

/-- Surgical comma insertion at the line/column reported by the first
decode error (note the source applies the position of that earlier error to
the already re-substituted text). -/
def insertCommaAt (s : Str) (ln col : Nat) : Str :=
  let lines := splitNl s
  if 1 ≤ ln ∧ ln ≤ lines.length then
    let line := lines.getD (ln - 1) []
    if col ≤ line.length then
      joinNl (lines.set (ln - 1) (line.take col ++ ',' :: line.drop col))
    else s
  else s

/-- Placeholder markers of escape_special_chars_in_strings. -/
def specialMarker (c : Char) : Option Str :=
  if c = ',' then some ("###COMMA###".data)
  else if c = ':' then some ("###COLON###".data)
  else if c = lbrace then some ("###LCURLY###".data)
  else if c = rbrace then some ("###RCURLY###".data)
  else if c = '[' then some ("###LBRACKET###".data)
  else if c = ']' then some ("###RBRACKET###".data)
  else none

/-- escape_special_chars_in_strings: a char scan tracking an in-string flag
and a pending escape, replacing structural characters inside string
literals by placeholder markers. -/
def escapeSpecialGo : Bool → Bool → Str → Str
  | _, _, [] => []
  | inStr, escNext, c :: r =>
    if escNext then c :: escapeSpecialGo inStr false r
    else if c = '\\' then c :: escapeSpecialGo inStr true r
    else if c = '"' then c :: escapeSpecialGo (!inStr) false r
    else
      match specialMarker c with
      | some m => if inStr then m ++ escapeSpecialGo inStr false r else c :: escapeSpecialGo inStr false r
      | none => c :: escapeSpecialGo inStr false r

/-- escape_special_chars_in_strings over a whole string. -/
def escapeSpecial (s : Str) : Str := escapeSpecialGo false false s

/-- restore_special_chars: sequential replacement of the six markers. -/
def restoreSpecial (s : Str) : Str :=
  let s := replaceAll ("###COMMA###".data) [','] s
  let s := replaceAll ("###COLON###".data) [':'] s
  let s := replaceAll ("###LCURLY###".data) [lbrace] s
  let s := replaceAll ("###RCURLY###".data) [rbrace] s
  let s := replaceAll ("###LBRACKET###".data) ['['] s
  let s := replaceAll ("###RBRACKET###".data) [']'] s
  s

/-- Leftmost search of a positional matcher over every suffix (re.search). -/
def searchStr (f : Str → Option α) : Str → Option α
  | [] => f []
  | c :: cs =>
    match f (c :: cs) with
    | some a => some a
    | none => searchStr f cs

/-- Matcher at one position for the field patterns of the manual
extraction: a quoted key, a colon, regex whitespace, then a quoted body.
The captured group is the raw body text. The title/body/illustration
patterns use DOTALL and a no-backslash-before-the-closing-quote lookbehind;
the resolution pattern uses neither. -/
def tryField (key : Str) (dotall : Bool) (l : Str) : Option Str :=
  let lit := '"' :: (key ++ ['"', ':'])
  if lit.isPrefixOf l then
    match (l.drop lit.length).dropWhile isReWs with
    | '"' :: body =>
      let (content, rest) := if dotall then munchDA body else munchND body
      match rest with
      | '"' :: _ =>
        if dotall ∧ content.getLast? = some '\\' then none else some content
      | _ => none
    | _ => none
  else none

/-- The last-resort manual field extraction of call_editor_api: pull
resolution, title, body and optionally illustration straight out of the
text and assemble the result dictionary by hand. -/
def manual_extract (s : Str) : Option JValue :=
  let rm := searchStr (tryField ("resolution".data) false) s
  let tm := searchStr (tryField ("title".data) true) s
  let bm := searchStr (tryField ("body".data) true) s
  let im := searchStr (tryField ("illustration".data) true) s
  match rm, tm, bm with
  | some r, some t, some b =>
    let post := [("title".data, JValue.str t), ("body".data, JValue.str b)]
    let post := match im with
      | some i => post ++ [("illustration".data, JValue.str i)]
      | none => post
    some (.obj [("resolution".data, .str r), ("post".data, .obj post)])
  | _, _, _ => none

/-- Failure tail of the repair chain, entered when the first parse of the
pre-repaired text c3 failed with err: the three aggressive substitutions,
the surgical comma insertion driven by the position of that first error, a
second parse; then the escape/restore round trip and a third parse; finally
the manual extraction, and None when everything failed. -/
def repair_fallback (c3 : Str) (err : JErr) : Option JValue :=
  let c4 := reSub (tryCommaClose rbrace) c3
  let c5 := reSub (tryCommaClose ']') c4
  let c6 := reSub tryQuoteNl c5
  let c7 :=
    if err.kind = .expComma then insertCommaAt c6 (lineOf c3 err.pos) (colOf c3 err.pos)
    else c6
  match jsonParseE c7 with
  | .ok v => some v
  | .error _ =>
    match jsonParseE (restoreSpecial (escapeSpecial c7)) with
    | .ok v => some v
    | .error _ => manual_extract c7

/-- The full repair chain of call_editor_api from the extracted reply text
to the returned dictionary (lines 114 to 322 of api_clients.py): clean
reply, the unconditional stages 2 to 4, a first parse, and on failure the
repair_fallback tail. -/
def parse_reply_chain (reply : Str) : Option JValue :=
  let c3 := repair_stages (clean_reply reply)
  match jsonParseE c3 with
  | .ok v => some v
  | .error err => repair_fallback c3 err

/-! ## retry_with_backoff and the editor call (api_clients.py) -/

/-- Observable result of one decorated call: the returned value or the
exception that escaped, the number of underlying calls made, and the sleep
durations between them. -/
structure RetryResult (ε α : Type) where
  result : Except ε α
  calls : Nat
  sleeps : List ℚ

/-- Loop body of the retry_with_backoff wrapper: call the function; on a
normal return stop; on an exception re-raise it when the retry budget is
exhausted (x equals retries), otherwise sleep backoff times two to the x
plus the jitter drawn for this round and loop with x + 1. -/
def retryGo (backoff : ℚ) (jitter : Nat → ℚ) (outcome : Nat → Except ε α) (retries : Nat) :
    Nat → Nat → RetryResult ε α
  | x, fuel =>
    match outcome x with
    | .ok a => ⟨.ok a, 1, []⟩
    | .error e =>
      if x = retries then ⟨.error e, 1, []⟩
      else
        match fuel with
        | 0 => ⟨.error e, 1, []⟩
        | fuel + 1 =>
          let r := retryGo backoff jitter outcome retries (x + 1) fuel
          ⟨r.result, r.calls + 1, (backoff * 2 ^ x + jitter x) :: r.sleeps⟩

/-- retry_with_backoff(retries, backoff_in_seconds) around a fallible call;
the jitter function stands for the successive random.uniform(0, 1) draws
and the outcome function for the behaviour of the wrapped call on its k-th
invocation. -/
def retry_with_backoff (retries : Nat) (backoff : ℚ) (jitter : Nat → ℚ)
    (outcome : Nat → Except ε α) : RetryResult ε α :=
  retryGo backoff jitter outcome retries 0 retries

/-- Behaviour injected for one HTTP round trip of call_editor_api: either a
requests-level failure (connection error, timeout, or a raise_for_status
error on a 5xx), or a response whose extracted text is reply and whose
stop_reason field is present or not. -/
inductive ProviderResp where
  | netFail
  | http (reply : Str) (stop_ok : Bool)

/-- The two exceptions call_editor_api raises itself (and which are the
only ones its retry decorator ever sees). -/
inductive EditorExn where
  | tooShort
  | noStopReason
deriving DecidableEq

/-- One undecorated execution of call_editor_api given the injected
provider behaviour: a requests exception is caught inside the function and
returns None without raising; a reply that is empty or shorter than 50
characters raises Incomplete API response; a missing stop_reason raises as
well; otherwise the repair chain runs and its result is returned. -/
def editorAttempt : ProviderResp → Except EditorExn (Option JValue)
  | .netFail => .ok none
  | .http reply stop_ok =>
    if reply = [] ∨ reply.length < 50 then .error .tooShort
    else if !stop_ok then .error .noStopReason
    else .ok (parse_reply_chain reply)

/-- The decorated call_editor_api: retry_with_backoff(retries=3,
backoff_in_seconds=2) around editorAttempt, the k-th attempt seeing the
k-th injected provider behaviour. -/
def call_editor_api (jitter : Nat → ℚ) (resps : Nat → ProviderResp) :
    RetryResult EditorExn (Option JValue) :=
  retry_with_backoff 3 2 jitter (fun k => editorAttempt (resps k))

/-! ## The per-group slice of main.process_news -/

/-- Python truthiness of an optional looked-up JSON value. -/
def jTruthy : Option JValue → Bool
  | none => false
  | some (.str s) => !s.isEmpty
  | some (.num l) => l.any (fun c => c.isDigit && c ≠ '0')
  | some (.bool b) => b
  | some .null => false
  | some (.arr xs) => !xs.isEmpty
  | some (.obj fs) => !fs.isEmpty

/-- Lookup of a string-valued key. -/
def jGetStr (v : JValue) (key : Str) : Option Str :=
  match jGet v key with
  | some (.str s) => some s
  | _ => none

/-- What main.process_news does with one group, as observed by the operator
and the database. -/
inductive PipelineOutcome where
  | apiError
  | apiNone
  | incompleteApprove
  | emptyApprove
  | runtimeError
  | preview (title body : Str) (image_url : Option Str)
  | rejected (reason : Str)
deriving DecidableEq

/-- The body of the per-group loop of process_news (main.py lines 447 to
539) given the result of the decorated editor call: an escaped exception or
a None result aborts the group with an operator error message and no
database write; an approve without a truthy post, or with an empty title or
body, likewise; otherwise the group is marked processed, and the result is
either previewed to the admin (approve) or rejected with
update_news_status_by_group(group, False) (deny). imageGen injects the
generate_image behaviour. -/
def process_group (imageGen : Str → Option Str) (res : Except EditorExn (Option JValue))
    (gid : Nat) (db : DB) : PipelineOutcome × DB :=
  match res with
  | .error _ => (.apiError, db)
  | .ok none => (.apiNone, db)
  | .ok (some result) =>
    let postOpt := jGet result ("post".data)
    if ¬ jTruthy postOpt ∧ jGetStr result ("resolution".data) = some ("approve".data) then
      (.incompleteApprove, db)
    else
      match postOpt with
      | some (.str _) => (.runtimeError, db)
      | some (.num _) => (.runtimeError, db)
      | some (.bool _) => (.runtimeError, db)
      | some .null => (.runtimeError, db)
      | some (.arr _) => (.runtimeError, db)
      | _ =>
        let post : JValue := postOpt.getD (.obj [])
        if jGetStr result ("resolution".data) = some ("approve".data) ∧
            (¬ jTruthy (jGet post ("title".data)) ∨ ¬ jTruthy (jGet post ("body".data))) then
          (.emptyApprove, db)
        else
          let illus := match jGet post ("illustration".data) with
            | some (.str s) => s
            | _ => []
          let image_url :=
            if ¬ illus.isEmpty ∧ jGetStr result ("resolution".data) = some ("approve".data) then
              imageGen illus
            else none
          let db1 := mark_news_as_processed gid db
          if jGetStr result ("resolution".data) = some ("approve".data) then
            let title := (jGetStr post ("title".data)).getD ("Без заголовка".data)
            let body := (jGetStr post ("body".data)).getD []
            (.preview title body image_url, db1)
          else
            let reason := (jGetStr result ("reason".data)).getD ("Нет объяснения".data)
            (.rejected reason, update_news_status_by_group gid false db1)

/-! ## main.button_handler, approve branch -/

/-- The approve branch of button_handler: it first runs
update_news_status_by_group(group, True), then attempts the channel
publish; the returned booleans are (published, failure shown to operator).
sinkOk injects whether the send to the channel succeeds. -/
def button_approve (gid : Nat) (sinkOk : Bool) (db : DB) : DB × Bool × Bool :=
  let db1 := update_news_status_by_group gid true db
  if sinkOk then (db1, true, false) else (db1, false, true)

/-! ## scheduled_posts, the startup re-arming, and the deferred job -/

/-- One row of the scheduled_posts table. -/
structure SPost where
  id : Nat
  group_id : Nat
  scheduled_time : Nat
  title : Str
  body : Str
  image_url : Option Str
  is_posted : Bool
deriving DecidableEq

/-- The scheduled_posts table. -/
abbrev SDB := List SPost

/-- Ordering by scheduled_time (ORDER BY scheduled_time ASC). -/
def timeLe (a b : SPost) : Prop := a.scheduled_time ≤ b.scheduled_time

instance : DecidableRel timeLe := fun a b => Nat.decLe a.scheduled_time b.scheduled_time

instance : IsTotal SPost timeLe := ⟨fun a b => Nat.le_total a.scheduled_time b.scheduled_time⟩

instance : IsTrans SPost timeLe := ⟨fun _ _ _ h h' => Nat.le_trans h h'⟩

/-- database.get_scheduled_posts: the rows with is_posted = false, earliest
first. -/
def get_scheduled_posts (db : SDB) : List SPost :=
  (db.filter (fun p => p.is_posted == false)).insertionSort timeLe

/-- database.update_post_status: SET is_posted = posted WHERE group_id =
gid AND is_posted = false. -/
def update_post_status (gid : Nat) (posted : Bool) (db : SDB) : SDB :=
  db.map (fun p =>
    if p.group_id = gid ∧ p.is_posted = false then { p with is_posted := posted } else p)

/-- database.schedule_post: INSERT a new row with is_posted = false. -/
def schedule_post (gid t : Nat) (title body : Str) (img : Option Str) (db : SDB) : SDB :=
  db ++ [⟨db.length, gid, t, title, body, img, false⟩]

/-- The job_context payload of a deferred publish job. -/
structure JobCtx where
  group_id : Nat
  title : Str
  body : Str
  image_url : Option Str
deriving DecidableEq

/-- Payload built from a scheduled_posts row. -/
def jobOf (p : SPost) : JobCtx := ⟨p.group_id, p.title, p.body, p.image_url⟩

/-- The startup re-arming loop of main (lines 817 to 835): every
get_scheduled_posts row whose scheduled_time is strictly after now gets a
deferred job. -/
def resume_jobs (db : SDB) (now : Nat) : List JobCtx :=
  ((get_scheduled_posts db).filter (fun p => decide (now < p.scheduled_time))).map jobOf

/-- main.post_scheduled_content: publish the payload to the channel; on
success run update_post_status(group, True); on failure leave the table
alone and notify the admin. Returns the new table and whether the admin
was notified of a failure. sinkOk injects whether the channel send
succeeds. -/
def post_scheduled_content (sinkOk : Bool) (j : JobCtx) (db : SDB) : SDB × Bool :=
  if sinkOk then (update_post_status j.group_id true db, false) else (db, true)

/-! ## main.confirm_schedule -/

/-- The cached per-group data looked up in bot_data. -/
structure GroupData where
  editor_result : JValue
  image_url : Option Str

/-- Conversation context as confirm_schedule sees it: the two user_data
entries and the bot_data cache entry for the selected group. -/
structure ConfirmCtx where
  scheduling_group_id : Option Nat
  scheduled_time_str : Option Str
  cached : Option GroupData

/-- The state confirm_schedule can touch: the fetched_events table, the
scheduled_posts table, and the registered deferred jobs. -/
structure BotState where
  fdb : DB
  sdb : SDB
  jobs : List JobCtx
deriving DecidableEq

/-- Operator-visible outcome of confirm_schedule. -/
inductive ConfirmOutcome where
  | errNoSelection
  | errNoData
  | errTime
  | scheduled (title : Str)
deriving DecidableEq

/-- main.confirm_schedule: bail out with an error message and no side
effects when the stored group id or time selection is missing, when the
cached group data is gone, or when the time string fails to parse;
otherwise insert the scheduled_posts row, mark the group posted, and
register the deferred job. parseTime injects datetime.strptime. -/
def confirm_schedule (parseTime : Str → Option Nat) (ctx : ConfirmCtx) (st : BotState) :
    BotState × ConfirmOutcome :=
  match ctx.scheduling_group_id, ctx.scheduled_time_str with
  | some gid, some ts =>
    match ctx.cached with
    | none => (st, .errNoData)
    | some gd =>
      match parseTime ts with
      | none => (st, .errTime)
      | some t =>
        let post := (jGet gd.editor_result ("post".data)).getD (.obj [])
        let title := (jGetStr post ("title".data)).getD ("Без заголовка".data)
        let body := (jGetStr post ("body".data)).getD []
        let sdb2 := schedule_post gid t title body gd.image_url st.sdb
        let fdb2 := update_news_status_by_group gid true st.fdb
        let jobs2 := st.jobs ++ [⟨gid, title, body, gd.image_url⟩]
        (⟨fdb2, sdb2, jobs2⟩, .scheduled title)
  | _, _ => (st, .errNoSelection)

/-! ## Concrete fixtures used by counterexamples and witnesses -/

/-- The news list of one group as computed inside get_unposted_news_groups. -/
def entryOf (db : DB) (g : Nat) : List Row :=
  lastN 3 (sortByDate (sortByDate (nullRowsOf g db)))

/-- A one-row table for the monotonicity witness. -/
def dbW1 : DB := [⟨0, 1, 0, [], none⟩]

/-- A reply that is valid JSON but contains a single-quote character inside
a string literal. -/
def c2Bad : Str :=
  ("\x7b\"resolution\": \"deny\", \"reason\": \"it").data ++ apos :: ("s\"\x7d").data

/-- What stage 1 alone parses c2Bad to. -/
def c2BadParsed : JValue :=
  .obj [(("resolution").data, .str (("deny").data)),
        (("reason").data, .str ((("it").data ++ apos :: ("s").data)))]

/-- A minimal already-valid reply (the deny contract reply). -/
def t2deny : Str := ("\x7b\"resolution\": \"deny\"\x7d").data

/-- Its parse. -/
def v2deny : JValue := .obj [(("resolution").data, .str (("deny").data))]

/-- The exact deny reply of the editorial contract, without spaces. -/
def denyReply : Str := ("\x7b\"resolution\":\"deny\"\x7d").data

/-- The two-report group of the deny scenario, already claimed by the
grouper (posted_flag false on both rows). -/
def dbC6 : DB :=
  [⟨0, 7, 1, ("report A at t1").data, some false⟩,
   ⟨1, 7, 2, ("report B at t2").data, some false⟩]

/-- A one-row table whose group is in review (posted_flag false). -/
def dbC7 : DB := [⟨0, 7, 0, [], some false⟩]

/-- A malformed reply (missing final brace) that reaches the manual
extraction stage and carries a deny resolution next to title and body
fields. -/
def c9Bad : Str :=
  ("\x7b\"resolution\": \"deny\", \"post\": \x7b\"title\": \"T\", \"body\": \"B\"\x7d").data

/-- The dictionary the manual extraction assembles from c9Bad. -/
def c9Result : JValue :=
  .obj [(("resolution").data, .str (("deny").data)),
        (("post").data, .obj [(("title").data, .str ['T']), (("body").data, .str ['B'])])]

/-- Grouping witness table: group 5 has one unset row; group 7 has an
unset row and a false row (in review, must be excluded); group 1 has four
unset rows out of chronological order plus a published row. -/
def dbW4 : DB :=
  [⟨0, 5, 10, [], none⟩,
   ⟨1, 7, 11, [], none⟩,
   ⟨2, 7, 12, [], some false⟩,
   ⟨3, 1, 4, [], none⟩,
   ⟨4, 1, 1, [], none⟩,
   ⟨5, 1, 3, [], none⟩,
   ⟨6, 1, 2, [], none⟩,
   ⟨7, 1, 9, [], some true⟩]

/-- Scheduler witness table: a future unposted row, an already posted row,
and a past unposted row. -/
def sdbW5 : SDB :=
  [⟨0, 1, 10, ['t'], ['b'], none, false⟩,
   ⟨1, 2, 20, ['u'], ['c'], some ['i'], true⟩,
   ⟨2, 3, 2, ['v'], ['d'], none, false⟩]

/-- Witness context for confirm_schedule with the cached group data gone. -/
def ctxW10 : ConfirmCtx :=
  { scheduling_group_id := some 7, scheduled_time_str := some ("01.01.2030 10:00".data),
    cached := none }

/-- Witness bot state for confirm_schedule. -/
def stW10 : BotState := { fdb := dbC7, sdb := sdbW5, jobs := [] }

/-- The news list get_unposted_news_groups returns for group 1 of dbW4:
the three most recent unset rows, chronologically ordered. -/
def lW8 : List Row := [⟨6, 1, 2, [], none⟩, ⟨5, 1, 3, [], none⟩, ⟨3, 1, 4, [], none⟩]

/-- Witness provider behaviour: every attempt returns a too-short reply. -/
def respsW : Nat → ProviderResp := fun _ => .http ['x'] true

/-- Witness jitter draws. -/
def jitterW : Nat → ℚ := fun _ => 1 / 2

/-! # Theorems -/

lemma flagRank_markRow (g : Nat) (r : Row) :
    flagRank r.isPosted ≤ flagRank (markRow g r).isPosted := by
  unfold markRow
  split
  · next h => rw [h.2]; simp [flagRank]
  · exact le_refl _

lemma flagRank_updateRow (g : Nat) (status : Bool) (r : Row) :
    flagRank r.isPosted ≤ flagRank (updateRow g status r).isPosted := by
  unfold updateRow
  split
  · next h =>
    rcases h.2 with h2 | h2 <;> rw [h2] <;> cases status <;> simp [flagRank]
  · exact le_refl _

/-- C1: for every row of fetched_events, both database-updating operations
(mark_news_as_processed and update_news_status_by_group, for every group id
and status) only move the posted flag upward in the order
unset < false < true: no row goes from true to false, from true to unset,
or from false to unset. -/
theorem C1_posted_flag_monotone (db : DB) (g : Nat) (status : Bool) (i : Nat)
    (h1 : i < db.length) (h2 : i < (mark_news_as_processed g db).length)
    (h3 : i < (update_news_status_by_group g status db).length) :
    flagRank (db.get ⟨i, h1⟩).isPosted ≤
      flagRank ((mark_news_as_processed g db).get ⟨i, h2⟩).isPosted ∧
    flagRank (db.get ⟨i, h1⟩).isPosted ≤
      flagRank ((update_news_status_by_group g status db).get ⟨i, h3⟩).isPosted := by
  constructor
  · have hm : (mark_news_as_processed g db).get ⟨i, h2⟩ = markRow g (db.get ⟨i, h1⟩) := by
      simp [mark_news_as_processed]
    rw [hm]
    exact flagRank_markRow g _
  · have hu : (update_news_status_by_group g status db).get ⟨i, h3⟩ =
        updateRow g status (db.get ⟨i, h1⟩) := by
      simp [update_news_status_by_group]
    rw [hu]
    exact flagRank_updateRow g status _

/-- Witness for C1 at a concrete one-row table. -/
theorem C1_posted_flag_monotone_witness :
    flagRank (dbW1.get ⟨0, by decide⟩).isPosted ≤
      flagRank ((mark_news_as_processed 1 dbW1).get ⟨0, by decide⟩).isPosted ∧
    flagRank (dbW1.get ⟨0, by decide⟩).isPosted ≤
      flagRank ((update_news_status_by_group 1 true dbW1).get ⟨0, by decide⟩).isPosted :=
  C1_posted_flag_monotone dbW1 1 true 0 (by decide) (by decide) (by decide)

/-- C7 counterexample: the claim says that after the operator approves and
the publish to the channel fails, the posted flag is not true; but
button_handler runs update_news_status_by_group(group, True) before the
publish attempt, so on a failed publish the row is already flagged true. -/
theorem C7_counterexample :
    (button_approve 7 false dbC7).1 = [⟨0, 7, 0, [], some true⟩] ∧
    (button_approve 7 false dbC7).2.1 = false ∧
    (button_approve 7 false dbC7).2.2 = true :=
  ⟨rfl, rfl, rfl⟩

/-- C7 amended: the approve branch flags the whole group posted (true)
before attempting the publish, so after a failed publish every row of the
group carries posted_flag = true (not a not-yet-published state); the post
is published iff the sink succeeds, and the operator is notified of a
failure otherwise. -/
theorem C7_flag_set_before_publish (db : DB) (gid : Nat) (sinkOk : Bool) :
    (button_approve gid sinkOk db).1 = update_news_status_by_group gid true db ∧
    (∀ r ∈ (button_approve gid sinkOk db).1, r.groupId = gid → r.isPosted = some true) ∧
    (button_approve gid sinkOk db).2.1 = sinkOk ∧
    (button_approve gid sinkOk db).2.2 = !sinkOk := by
  refine ⟨?_, ?_, ?_, ?_⟩
  · cases sinkOk <;> rfl
  · intro r hr hg
    have hr2 : r ∈ update_news_status_by_group gid true db := by
      cases sinkOk <;> exact hr
    obtain ⟨r0, -, rfl⟩ := List.mem_map.mp hr2
    by_cases hc : r0.groupId = gid ∧ (r0.isPosted = none ∨ r0.isPosted = some false)
    · unfold updateRow
      rw [if_pos hc]
    · unfold updateRow at hg ⊢
      rw [if_neg hc] at hg ⊢
      rcases hpost : r0.isPosted with _ | b
      · exact absurd ⟨hg, Or.inl hpost⟩ hc
      · cases b
        · exact absurd ⟨hg, Or.inr hpost⟩ hc
        · rfl
  · cases sinkOk <;> rfl
  · cases sinkOk <;> rfl

/-- C10: when the stored group id or time selection is missing or the
cached group data is gone, confirm_schedule only reports an error: the
fetched_events and scheduled_posts tables and the registered jobs are
untouched. -/
theorem C10_missing_data_no_side_effects (parseTime : Str → Option Nat) (ctx : ConfirmCtx)
    (st : BotState)
    (h : ctx.scheduling_group_id = none ∨ ctx.scheduled_time_str = none ∨ ctx.cached = none) :
    (confirm_schedule parseTime ctx st).1 = st ∧
    ((confirm_schedule parseTime ctx st).2 = .errNoSelection ∨
      (confirm_schedule parseTime ctx st).2 = .errNoData) := by
  obtain ⟨gid, ts, cac⟩ := ctx
  rcases h with h | h | h <;> simp only at h <;> subst h
  · cases ts <;> simp [confirm_schedule]
  · cases gid <;> simp [confirm_schedule]
  · cases gid <;> cases ts <;> simp [confirm_schedule]

/-- Witness for C10 with the cached group data missing. -/
theorem C10_missing_data_no_side_effects_witness :
    (confirm_schedule (fun _ => none) ctxW10 stW10).1 = stW10 ∧
    ((confirm_schedule (fun _ => none) ctxW10 stW10).2 = .errNoSelection ∨
      (confirm_schedule (fun _ => none) ctxW10 stW10).2 = .errNoData) :=
  C10_missing_data_no_side_effects (fun _ => none) ctxW10 stW10 (Or.inr (Or.inr rfl))

/-- C5: at startup exactly the scheduled_posts rows with is_posted = false
and a strictly future scheduled_time are re-armed as jobs; when a fired job
publishes successfully, update_post_status(group, True) flips exactly the
rows of the group still false and never touches a row already true (so a
row flips at most once); on a failed publish the table is unchanged and
the operator is notified. -/
theorem C5_scheduler_resume_and_fire (db : SDB) (now : Nat) (j : JobCtx) (jb : JobCtx)
    (gid : Nat) (i : Nat) (h1 : i < db.length) (h2 : i < (update_post_status gid true db).length) :
    (j ∈ resume_jobs db now ↔
      ∃ p ∈ db, p.is_posted = false ∧ now < p.scheduled_time ∧ j = jobOf p) ∧
    ((update_post_status gid true db).get ⟨i, h2⟩ =
      if (db.get ⟨i, h1⟩).group_id = gid ∧ (db.get ⟨i, h1⟩).is_posted = false
      then { db.get ⟨i, h1⟩ with is_posted := true } else db.get ⟨i, h1⟩) ∧
    ((db.get ⟨i, h1⟩).is_posted = true →
      (update_post_status gid true db).get ⟨i, h2⟩ = db.get ⟨i, h1⟩) ∧
    post_scheduled_content true jb db = (update_post_status jb.group_id true db, false) ∧
    post_scheduled_content false jb db = (db, true) := by
  have hchar : (update_post_status gid true db).get ⟨i, h2⟩ =
      if (db.get ⟨i, h1⟩).group_id = gid ∧ (db.get ⟨i, h1⟩).is_posted = false
      then { db.get ⟨i, h1⟩ with is_posted := true } else db.get ⟨i, h1⟩ := by
    simp [update_post_status]
  refine ⟨?_, hchar, ?_, rfl, rfl⟩
  · simp only [resume_jobs, get_scheduled_posts, List.mem_map, List.mem_filter,
      (List.perm_insertionSort timeLe _).mem_iff, decide_eq_true_eq, beq_iff_eq]
    constructor
    · rintro ⟨p, ⟨⟨hp, hfalse⟩, hnow⟩, rfl⟩
      exact ⟨p, hp, hfalse, hnow, rfl⟩
    · rintro ⟨p, hp, hfalse, hnow, rfl⟩
      exact ⟨p, ⟨⟨hp, hfalse⟩, hnow⟩, rfl⟩
  · intro htrue
    have hnc : ¬((db.get ⟨i, h1⟩).group_id = gid ∧ (db.get ⟨i, h1⟩).is_posted = false) := by
      rintro ⟨-, hfalse⟩
      rw [htrue] at hfalse
      cases hfalse
    rw [hchar, if_neg hnc]

/-- Witness for C5 on a concrete table: the future unposted row is armed,
and a failed fire changes nothing. -/
theorem C5_scheduler_resume_and_fire_witness :
    ((⟨1, ['t'], ['b'], none⟩ : JobCtx) ∈ resume_jobs sdbW5 3 ↔
      ∃ p ∈ sdbW5, p.is_posted = false ∧ 3 < p.scheduled_time ∧
        (⟨1, ['t'], ['b'], none⟩ : JobCtx) = jobOf p) ∧
    ((update_post_status 2 true sdbW5).get ⟨1, by decide⟩ =
      if (sdbW5.get ⟨1, by decide⟩).group_id = 2 ∧ (sdbW5.get ⟨1, by decide⟩).is_posted = false
      then { sdbW5.get ⟨1, by decide⟩ with is_posted := true } else sdbW5.get ⟨1, by decide⟩) ∧
    ((sdbW5.get ⟨1, by decide⟩).is_posted = true →
      (update_post_status 2 true sdbW5).get ⟨1, by decide⟩ = sdbW5.get ⟨1, by decide⟩) ∧
    post_scheduled_content true (⟨1, ['t'], ['b'], none⟩ : JobCtx) sdbW5 =
      (update_post_status 1 true sdbW5, false) ∧
    post_scheduled_content false (⟨1, ['t'], ['b'], none⟩ : JobCtx) sdbW5 = (sdbW5, true) :=
  C5_scheduler_resume_and_fire sdbW5 3 ⟨1, ['t'], ['b'], none⟩ ⟨1, ['t'], ['b'], none⟩ 2 1
    (by decide) (by decide)

/-- C2 counterexample: c2Bad is valid JSON after stage-1 stripping (it
parses to c2BadParsed), yet the full chain returns None, because the
unconditional single-to-double-quote replacement of stage 2 corrupts the
apostrophe inside a string literal and no later stage recovers. -/
theorem C2_counterexample :
    jsonParseE (strip_fences c2Bad) = .ok c2BadParsed ∧
    parse_reply_chain c2Bad = none :=
  ⟨rfl, rfl⟩

/-- C2 amended: the chain returns exactly the stage-1 parse for an
already-valid reply provided the unconditional stages 2 to 4 (quote
normalization, per-line quote closing, separator insertion) leave the
stripped text unchanged; without that proviso the chain can destroy valid
input (see the counterexample). -/
theorem C2_chain_identity_on_stable_valid_input (t : Str) (v : JValue)
    (h1 : jsonParseE (strip_fences t) = .ok v)
    (h2 : repair_stages (strip_fences t) = strip_fences t) :
    parse_reply_chain t = some v := by
  have hc : clean_reply t = strip_fences t := by
    unfold clean_reply
    simp only [h1]
  unfold parse_reply_chain
  simp only [hc]
  simp only [h2]
  simp only [h1]

/-- Witness for the amended C2 on the plain deny reply. -/
theorem C2_chain_identity_on_stable_valid_input_witness :
    parse_reply_chain t2deny = some v2deny :=
  C2_chain_identity_on_stable_valid_input t2deny v2deny rfl rfl

/-- C3 counterexample: an injected network failure (requests exception) is
caught inside call_editor_api and returned as None from the very first
call: no retry happens (1 call, no sleeps) and no error is surfaced, while
the claim requires 3 retries uniformly for all transient errors followed by
a surfaced failure. -/
theorem C3_counterexample :
    (call_editor_api (fun _ => 0) (fun _ => .netFail)).result = .ok none ∧
    (call_editor_api (fun _ => 0) (fun _ => .netFail)).calls = 1 ∧
    (call_editor_api (fun _ => 0) (fun _ => .netFail)).sleeps = [] :=
  ⟨rfl, rfl, rfl⟩

/-- C3 amended: only the incomplete-response errors raised inside
call_editor_api are retried: when every attempt raises, the wrapped call
runs 4 times (1 initial + 3 retries), sleeps backoff 2 times 2 to the
attempt plus the jitter draw between calls (within [2 times 2 to the k,
2 times 2 to the k + 1) when the jitter is in [0, 1)), and the last
exception then propagates to the caller; network/request errors are caught
inside the call and yield None from the first attempt with no retry. -/
theorem C3_retry_only_incomplete_errors (resps : Nat → ProviderResp) (jitter : Nat → ℚ)
    (hfail : ∀ k, ∃ e, editorAttempt (resps k) = .error e)
    (hj : ∀ k, 0 ≤ jitter k ∧ jitter k < 1) :
    (∃ e, (call_editor_api jitter resps).result = .error e) ∧
    (call_editor_api jitter resps).calls = 4 ∧
    (call_editor_api jitter resps).sleeps =
      [2 * 2 ^ 0 + jitter 0, 2 * 2 ^ 1 + jitter 1, 2 * 2 ^ 2 + jitter 2] ∧
    (∀ k, (hk : k < (call_editor_api jitter resps).sleeps.length) →
      2 * 2 ^ k ≤ (call_editor_api jitter resps).sleeps[k] ∧
      (call_editor_api jitter resps).sleeps[k] < 2 * 2 ^ k + 1) ∧
    editorAttempt .netFail = .ok none ∧
    (call_editor_api jitter (fun _ => .netFail)).calls = 1 := by
  obtain ⟨e0, h0⟩ := hfail 0
  obtain ⟨e1, h1⟩ := hfail 1
  obtain ⟨e2, h2⟩ := hfail 2
  obtain ⟨e3, h3⟩ := hfail 3
  have hrun : call_editor_api jitter resps =
      ⟨.error e3, 4, [2 * 2 ^ 0 + jitter 0, 2 * 2 ^ 1 + jitter 1, 2 * 2 ^ 2 + jitter 2]⟩ := by
    unfold call_editor_api retry_with_backoff
    simp only [retryGo, h0, h1, h2, h3]
    norm_num
  have hs : (call_editor_api jitter resps).sleeps =
      [2 * 2 ^ 0 + jitter 0, 2 * 2 ^ 1 + jitter 1, 2 * 2 ^ 2 + jitter 2] := by rw [hrun]
  refine ⟨⟨e3, by rw [hrun]⟩, by rw [hrun], hs, ?_, rfl, rfl⟩
  intro k hk
  simp only [hs] at hk ⊢
  simp only [List.length_cons, List.length_nil] at hk
  interval_cases k
  · refine ⟨?_, ?_⟩ <;> simp <;> linarith [(hj 0).1, (hj 0).2]
  · refine ⟨?_, ?_⟩ <;> simp <;> linarith [(hj 1).1, (hj 1).2]
  · refine ⟨?_, ?_⟩ <;> simp <;> linarith [(hj 2).1, (hj 2).2]

/-- Witness for the amended C3: a constant too-short reply is retried three
times with the drawn jitter and then surfaces the exception. -/
theorem C3_retry_only_incomplete_errors_witness :
    (∃ e, (call_editor_api jitterW respsW).result = .error e) ∧
    (call_editor_api jitterW respsW).calls = 4 ∧
    (call_editor_api jitterW respsW).sleeps =
      [2 * 2 ^ 0 + jitterW 0, 2 * 2 ^ 1 + jitterW 1, 2 * 2 ^ 2 + jitterW 2] ∧
    (∀ k, (hk : k < (call_editor_api jitterW respsW).sleeps.length) →
      2 * 2 ^ k ≤ (call_editor_api jitterW respsW).sleeps[k] ∧
      (call_editor_api jitterW respsW).sleeps[k] < 2 * 2 ^ k + 1) ∧
    editorAttempt .netFail = .ok none ∧
    (call_editor_api jitterW (fun _ => .netFail)).calls = 1 :=
  C3_retry_only_incomplete_errors respsW jitterW (fun _ => ⟨.tooShort, rfl⟩)
    (fun _ => by norm_num [jitterW])

/-- C6: the editorial contract reply for a denial is rejected by the
50-character minimum-length gate of call_editor_api: the attempt raises
Incomplete API response although the reply is valid JSON carrying
resolution deny, the decorated call exhausts its 4 attempts and propagates
the exception, and process_news then reports a generic processing error
for the group without reaching the rejection branch (no publish, no
status update, no denial notification). -/
theorem C6_deny_reply_rejected_as_incomplete :
    editorAttempt (.http denyReply true) = .error .tooShort ∧
    jsonParseE denyReply = .ok v2deny ∧
    (call_editor_api (fun _ => 0) (fun _ => .http denyReply true)).result =
      .error .tooShort ∧
    (call_editor_api (fun _ => 0) (fun _ => .http denyReply true)).calls = 4 ∧
    process_group (fun _ => none) (.error .tooShort) 7 dbC6 = (.apiError, dbC6) :=
  ⟨rfl, rfl, rfl, rfl, rfl⟩

/-- C9 counterexample: a malformed reply that falls through to the manual
field extraction is accepted with resolution deny and a post object
attached, contradicting the post-present-iff-approve claim. -/
theorem C9_counterexample :
    parse_reply_chain c9Bad = some c9Result ∧
    jGet c9Result ("resolution".data) = some (.str ("deny".data)) ∧
    (jGet c9Result ("post".data)).isSome = true :=
  ⟨rfl, rfl, rfl⟩

/-- C9 amended: the parser enforces no post-iff-approve shape; in
particular every result assembled by the last-resort manual extraction
stage carries a post object with title and body fields, whatever the
extracted resolution says. -/
theorem C9_manual_extraction_always_attaches_post (s : Str) (v : JValue)
    (h : manual_extract s = some v) :
    ∃ r post t b, jGet v ("resolution".data) = some (.str r) ∧
      jGet v ("post".data) = some post ∧
      jGet post ("title".data) = some (.str t) ∧
      jGet post ("body".data) = some (.str b) := by
  simp only [manual_extract] at h
  rcases hrm : searchStr (tryField ("resolution".data) false) s with _ | r <;> rw [hrm] at h
  · exact Option.noConfusion h
  rcases htm : searchStr (tryField ("title".data) true) s with _ | t <;> rw [htm] at h
  · exact Option.noConfusion h
  rcases hbm : searchStr (tryField ("body".data) true) s with _ | b <;> rw [hbm] at h
  · exact Option.noConfusion h
  rcases him : searchStr (tryField ("illustration".data) true) s with _ | i <;> rw [him] at h
  · have hv : (JValue.obj [(("resolution").data, .str r),
        (("post").data, .obj [(("title").data, .str t), (("body").data, .str b)])]) = v :=
      Option.some.inj h
    subst hv
    exact ⟨r, _, t, b, rfl, rfl, rfl, rfl⟩
  · have hv : (JValue.obj [(("resolution").data, .str r),
        (("post").data, .obj [(("title").data, .str t), (("body").data, .str b),
          (("illustration").data, .str i)])]) = v :=
      Option.some.inj h
    subst hv
    exact ⟨r, _, t, b, rfl, rfl, rfl, rfl⟩

/-- Witness for the amended C9 on the concrete malformed reply. -/
theorem C9_manual_extraction_always_attaches_post_witness :
    ∃ r post t b, jGet c9Result ("resolution".data) = some (.str r) ∧
      jGet c9Result ("post".data) = some post ∧
      jGet post ("title".data) = some (.str t) ∧
      jGet post ("body".data) = some (.str b) :=
  C9_manual_extraction_always_attaches_post c9Bad c9Result rfl

/-- Witness for the amended C7 on the concrete one-row table. -/
theorem C7_flag_set_before_publish_witness :
    (button_approve 7 false dbC7).1 = update_news_status_by_group 7 true dbC7 ∧
    (⟨0, 7, 0, [], some true⟩ : Row).isPosted = some true ∧
    (button_approve 7 false dbC7).2.1 = false ∧
    (button_approve 7 false dbC7).2.2 = !false :=
  ⟨(C7_flag_set_before_publish dbC7 7 false).1,
   (C7_flag_set_before_publish dbC7 7 false).2.1 _ (by decide) rfl,
   (C7_flag_set_before_publish dbC7 7 false).2.2.1,
   (C7_flag_set_before_publish dbC7 7 false).2.2.2⟩

lemma sortByDate_perm (l : List Row) : List.Perm (sortByDate l) l :=
  List.perm_insertionSort dateLe l

lemma sortByDate_sorted (l : List Row) : List.Sorted dateLe (sortByDate l) :=
  List.sorted_insertionSort dateLe l

lemma sortByDate_idem (l : List Row) : sortByDate (sortByDate l) = sortByDate l :=
  List.Sorted.insertionSort_eq (sortByDate_sorted l)

lemma filter_map_invariant (f : Row → Row) (p : Row → Bool)
    (hp : ∀ r, p (f r) = p r) (hid : ∀ r, p r = true → f r = r) :
    ∀ db : DB, (db.map f).filter p = db.filter p := by
  intro db
  induction db with
  | nil => rfl
  | cons r db ih =>
    simp only [List.map_cons, List.filter_cons, hp]
    cases hpr : p r with
    | true => simp [hpr, ih, hid r hpr]
    | false => simp [hpr, ih]

lemma nullRowsOf_mark_ne (g g' : Nat) (h : g' ≠ g) (db : DB) :
    nullRowsOf g' (mark_news_as_processed g db) = nullRowsOf g' db := by
  unfold nullRowsOf mark_news_as_processed
  apply filter_map_invariant
  · intro r
    unfold markRow
    split
    · next hc => simp [hc.1, hc.2, beq_iff_eq, Ne.symm h]
    · rfl
  · intro r hpr
    simp only [Bool.and_eq_true, beq_iff_eq] at hpr
    unfold markRow
    rw [if_neg]
    rintro ⟨hg, -⟩
    exact h (hpr.1 ▸ hg)

lemma foldl_claimStep_snd (gs : List Nat) : ∀ (acc : List (Nat × List Row)) (d : DB),
    (gs.foldl claimStep (acc, d)).2 = gs.foldl (fun d g => mark_news_as_processed g d) d := by
  induction gs with
  | nil => intro acc d; rfl
  | cons g gs ih =>
    intro acc d
    simp only [List.foldl_cons]
    exact ih _ _

lemma foldl_mark_map (gs : List Nat) : ∀ d : DB,
    gs.foldl (fun d g => mark_news_as_processed g d) d =
      d.map (fun r => gs.foldl (fun r g => markRow g r) r) := by
  induction gs with
  | nil => intro d; simp
  | cons g gs ih =>
    intro d
    simp only [List.foldl_cons]
    rw [ih (mark_news_as_processed g d)]
    unfold mark_news_as_processed
    rw [List.map_map]
    rfl

lemma chainMark_row (gs : List Nat) : ∀ r : Row,
    gs.foldl (fun r g => markRow g r) r =
      if r.groupId ∈ gs ∧ r.isPosted = none then { r with isPosted := some false } else r := by
  induction gs with
  | nil => intro r; simp
  | cons g gs ih =>
    intro r
    simp only [List.foldl_cons]
    by_cases hc : r.groupId = g ∧ r.isPosted = none
    · have hm : markRow g r = { r with isPosted := some false } := by
        unfold markRow; rw [if_pos hc]
      rw [hm, ih, if_neg (by simp), if_pos ⟨by simp [hc.1], hc.2⟩]
    · have hm : markRow g r = r := by unfold markRow; rw [if_neg hc]
      rw [hm, ih]
      by_cases hn : r.isPosted = none
      · have hg : r.groupId ≠ g := fun hg => hc ⟨hg, hn⟩
        simp [List.mem_cons, hn, hg]
      · simp [hn]

lemma foldl_claimStep_fst (gs : List Nat) : ∀ (acc : List (Nat × List Row)) (d : DB),
    gs.Nodup →
    (gs.foldl claimStep (acc, d)).1 = acc ++ gs.map (fun g => (g, entryOf d g)) := by
  induction gs with
  | nil => intro acc d _; simp
  | cons g gs ih =>
    intro acc d hnd
    simp only [List.foldl_cons]
    have h1 : claimStep (acc, d) g = (acc ++ [(g, entryOf d g)], mark_news_as_processed g d) :=
      rfl
    rw [h1, ih _ _ hnd.of_cons]
    have hmap : gs.map (fun g' => (g', entryOf (mark_news_as_processed g d) g')) =
        gs.map (fun g' => (g', entryOf d g')) := by
      apply List.map_congr_left
      intro g' hg'
      have hne : g' ≠ g := fun he => (List.nodup_cons.mp hnd).1 (he ▸ hg')
      unfold entryOf
      rw [nullRowsOf_mark_ne g g' hne]
    rw [hmap, List.append_assoc, List.singleton_append, List.map_cons]

lemma nodup_filteredGroupIds (db : DB) : (filteredGroupIds db).Nodup :=
  List.Nodup.filter _ (List.nodup_dedup _)

lemma gung_fst (db : DB) :
    (get_unposted_news_groups db).1 =
      (filteredGroupIds db).map (fun g => (g, entryOf db g)) := by
  unfold get_unposted_news_groups
  rw [foldl_claimStep_fst _ _ _ (nodup_filteredGroupIds db)]
  simp

lemma gung_snd (db : DB) :
    (get_unposted_news_groups db).2 =
      db.map (fun r => if r.groupId ∈ filteredGroupIds db ∧ r.isPosted = none
        then { r with isPosted := some false } else r) := by
  unfold get_unposted_news_groups
  rw [foldl_claimStep_snd, foldl_mark_map]
  apply List.map_congr_left
  intro r _
  exact chainMark_row _ r

lemma mem_gung_fst (db : DB) (g : Nat) (l : List Row) :
    (g, l) ∈ (get_unposted_news_groups db).1 ↔
      g ∈ filteredGroupIds db ∧ l = entryOf db g := by
  rw [gung_fst]
  constructor
  · intro hm
    obtain ⟨a, ha, heq⟩ := List.mem_map.mp hm
    obtain ⟨h1, h2⟩ := Prod.mk.inj heq
    subst h1
    exact ⟨ha, h2.symm⟩
  · rintro ⟨hg, rfl⟩
    exact List.mem_map.mpr ⟨g, hg, rfl⟩

lemma mem_unpostedGroupIds (db : DB) (g : Nat) :
    g ∈ unpostedGroupIds db ↔ ∃ r ∈ db, r.isPosted = none ∧ r.groupId = g := by
  unfold unpostedGroupIds
  rw [List.mem_dedup, (List.perm_insertionSort _ _).mem_iff, List.mem_filterMap]
  constructor
  · rintro ⟨r, hr, hopt⟩
    by_cases hn : r.isPosted = none
    · rw [if_pos hn] at hopt
      exact ⟨r, hr, hn, Option.some.inj hopt⟩
    · rw [if_neg hn] at hopt
      cases hopt
  · rintro ⟨r, hr, hn, rfl⟩
    exact ⟨r, hr, by rw [if_pos hn]⟩

lemma mem_filteredGroupIds (db : DB) (g : Nat) :
    g ∈ filteredGroupIds db ↔ g ∈ unpostedGroupIds db ∧
      (db.filter (fun r => r.groupId == g && r.isPosted == some false)).length = 0 := by
  unfold filteredGroupIds
  rw [List.mem_filter]
  simp [beq_iff_eq]

lemma false_row_excluded (db : DB) (g : Nat)
    (hex : ∃ r ∈ db, r.groupId = g ∧ r.isPosted = some false) :
    g ∉ filteredGroupIds db := by
  rw [mem_filteredGroupIds]
  rintro ⟨-, hlen⟩
  obtain ⟨r, hr, hg, hf⟩ := hex
  have hmem : r ∈ db.filter (fun r => r.groupId == g && r.isPosted == some false) :=
    List.mem_filter.mpr ⟨hr, by simp [hg, hf]⟩
  rw [List.length_eq_zero] at hlen
  rw [hlen] at hmem
  exact List.not_mem_nil r hmem

lemma no_null_after (db : DB) (g : Nat) (hg : g ∈ filteredGroupIds db) :
    g ∉ unpostedGroupIds (get_unposted_news_groups db).2 := by
  rw [mem_unpostedGroupIds]
  rintro ⟨r', hr', hnone, hgid⟩
  rw [gung_snd] at hr'
  obtain ⟨r, hr, rfl⟩ := List.mem_map.mp hr'
  by_cases hc : r.groupId ∈ filteredGroupIds db ∧ r.isPosted = none
  · rw [if_pos hc] at hnone
    cases hnone
  · rw [if_neg hc] at hnone hgid
    exact hc ⟨by rw [hgid]; exact hg, hnone⟩

/-- C4: the grouping operation (a) returns a table state in which exactly
the unset rows of the returned groups are set to posted_flag = false and
every other row is untouched, (b) never returns a group that already has a
posted_flag = false row, and consequently (c) a group returned by one call
is never contained in the result of an immediately following call on the
produced state (no re-claiming of an in-flight group). -/
theorem C4_claim_marks_and_excludes (db : DB) :
    ((get_unposted_news_groups db).2 =
      db.map (fun r =>
        if r.groupId ∈ (get_unposted_news_groups db).1.map Prod.fst ∧ r.isPosted = none
        then { r with isPosted := some false } else r)) ∧
    (∀ g, (∃ r ∈ db, r.groupId = g ∧ r.isPosted = some false) →
      ∀ l, (g, l) ∉ (get_unposted_news_groups db).1) ∧
    (∀ g l, (g, l) ∈ (get_unposted_news_groups db).1 →
      ∀ l', (g, l') ∉ (get_unposted_news_groups (get_unposted_news_groups db).2).1) := by
  have hkeys : (get_unposted_news_groups db).1.map Prod.fst = filteredGroupIds db := by
    rw [gung_fst, List.map_map]
    have hcomp : (Prod.fst ∘ fun g => (g, entryOf db g)) = id := rfl
    rw [hcomp, List.map_id]
  refine ⟨?_, ?_, ?_⟩
  · rw [hkeys]
    exact gung_snd db
  · intro g hex l hmem
    exact false_row_excluded db g hex ((mem_gung_fst db g l).mp hmem).1
  · intro g l hmem l' hmem'
    have hg : g ∈ filteredGroupIds db := ((mem_gung_fst db g l).mp hmem).1
    have hg' : g ∈ filteredGroupIds (get_unposted_news_groups db).2 :=
      ((mem_gung_fst _ g l').mp hmem').1
    exact no_null_after db g hg ((mem_filteredGroupIds _ g).mp hg').1

/-- Witness for C4 on dbW4: the in-review group 7 is excluded, and the
returned group 1 is not returned again by a second call on the new state. -/
theorem C4_claim_marks_and_excludes_witness :
    ((get_unposted_news_groups dbW4).2 =
      dbW4.map (fun r =>
        if r.groupId ∈ (get_unposted_news_groups dbW4).1.map Prod.fst ∧ r.isPosted = none
        then { r with isPosted := some false } else r)) ∧
    (∀ l, (7, l) ∉ (get_unposted_news_groups dbW4).1) ∧
    (∀ l', (1, l') ∉ (get_unposted_news_groups (get_unposted_news_groups dbW4).2).1) :=
  ⟨(C4_claim_marks_and_excludes dbW4).1,
   (C4_claim_marks_and_excludes dbW4).2.1 7 ⟨⟨2, 7, 12, [], some false⟩, by decide, rfl, rfl⟩,
   (C4_claim_marks_and_excludes dbW4).2.2 1 lW8 (by decide)⟩

/-- C8: every group list returned by the grouping operation has at most 3
reports, is sorted ascending by event timestamp, is a suffix of the
date-sorted unset rows of its group, and dominates every unset report of
the group it left out (those have earlier-or-equal timestamps): the window
kept is the most recent one. -/
theorem C8_group_window (db : DB) (g : Nat) (l : List Row)
    (h : (g, l) ∈ (get_unposted_news_groups db).1) :
    l.length ≤ 3 ∧ List.Sorted dateLe l ∧ l <:+ sortByDate (nullRowsOf g db) ∧
    (∀ r ∈ db, r.groupId = g → r.isPosted = none → r ∉ l →
      ∀ q ∈ l, r.eventDate ≤ q.eventDate) := by
  obtain ⟨-, rfl⟩ := (mem_gung_fst db g l).mp h
  have hid : entryOf db g =
      (sortByDate (nullRowsOf g db)).drop ((sortByDate (nullRowsOf g db)).length - 3) := by
    unfold entryOf lastN
    rw [sortByDate_idem]
  rw [hid]
  set S := sortByDate (nullRowsOf g db) with hS
  refine ⟨?_, ?_, ?_, ?_⟩
  · rw [List.length_drop]
    omega
  · exact List.Pairwise.sublist (List.drop_sublist _ _) (sortByDate_sorted _)
  · exact List.drop_suffix _ _
  · intro r hr hgid hnone hnotin q hq
    have hrS : r ∈ S := by
      rw [hS, (sortByDate_perm _).mem_iff]
      unfold nullRowsOf
      exact List.mem_filter.mpr ⟨hr, by simp [hgid, hnone]⟩
    have hsplit : S.take (S.length - 3) ++ S.drop (S.length - 3) = S :=
      List.take_append_drop _ _
    have hPS : List.Pairwise dateLe S := sortByDate_sorted _
    rw [← hsplit, List.pairwise_append] at hPS
    have hrtake : r ∈ S.take (S.length - 3) := by
      rw [← hsplit] at hrS
      rcases List.mem_append.mp hrS with hm | hm
      · exact hm
      · exact absurd hm hnotin
    exact hPS.2.2 r hrtake q hq

/-- Witness for C8 on dbW4: group 1 yields its three most recent unset
rows in chronological order, and the left-out oldest row is dominated. -/
theorem C8_group_window_witness :
    lW8.length ≤ 3 ∧ List.Sorted dateLe lW8 ∧
    lW8 <:+ sortByDate (nullRowsOf 1 dbW4) ∧
    (∀ r ∈ dbW4, r.groupId = 1 → r.isPosted = none → r ∉ lW8 →
      ∀ q ∈ lW8, r.eventDate ≤ q.eventDate) :=
  C8_group_window dbW4 1 lW8 (by decide)

end TgBot
